import Mathlib

/-
Verification of `mindnlp/sentence/models/transformer.py` (the `Transformer`
module wrapper for sentence embeddings).  The Python file is shallowly
embedded below: Python dicts become association lists with first-occurrence
lookup and in-place update, the filesystem becomes an association list from
path to file content, JSON values become an inductive type, and the external
model library (AutoModel / tokenizer / PEFT) is abstracted by records of
functions, since its implementation is explicitly out of the module's scope.
-/

set_option autoImplicit false

namespace MindNLP

universe u

/-! ### Python dictionaries as association lists

Python dict semantics: a lookup returns the binding of the key (keys are
unique in a dict, so first-occurrence lookup is faithful); assignment to an
existing key replaces its value in place, assignment to a fresh key appends
the new binding at the end (Python dicts preserve insertion order). -/

/-- Python `d[k]` for a dict, `none` when the key is absent (KeyError). -/
def dictGet {α : Type u} (d : List (String × α)) (k : String) : Option α :=
  match d with
  | [] => none
  | (k', v) :: rest => if k' = k then some v else dictGet rest k

/-- Python `d[k] = v` for a dict: replace the binding in place, or append. -/
def dictSet {α : Type u} (d : List (String × α)) (k : String) (v : α) :
    List (String × α) :=
  match d with
  | [] => [(k, v)]
  | (k', v') :: rest =>
    if k' = k then (k, v) :: rest else (k', v') :: dictSet rest k v

/-- Python `d.update(other)`: assign every binding of `other`, in order. -/
def dictUpdate {α : Type u} (d other : List (String × α)) :
    List (String × α) :=
  other.foldl (fun acc kv => dictSet acc kv.1 kv.2) d

/-- Python `k in d` for a dict. -/
def dictHasKey {α : Type u} (d : List (String × α)) (k : String) : Bool :=
  (dictGet d k).isSome

/-- The keys of a Python dict, in order. -/
def dictKeys {α : Type u} (d : List (String × α)) : List String :=
  d.map Prod.fst

/-! ### JSON values

The values handled by `json.dump` / `json.load` in this module: the
side-config is a flat object of scalars, and loaded configs may nest one
object level (`model_args` etc.).  Arrays do not occur in any config this
module reads or writes, so they are omitted from the embedding. -/

inductive Json where
  | null : Json
  | bool (b : Bool) : Json
  | num (n : Int) : Json
  | str (s : String) : Json
  | obj (fields : List (String × Json)) : Json
  deriving Repr

/-- Python `None`-or-int serialized by `json.dump`. -/
def optIntToJson : Option Int → Json
  | none => Json.null
  | some n => Json.num n

/-! ### Filesystem

A file either holds a JSON document or text that `json.load` rejects. -/

inductive FileContent where
  | json (j : Json) : FileContent
  | malformed (raw : String) : FileContent
  deriving Repr

/-- The filesystem: a map from absolute path to file content. -/
abbrev FS := List (String × FileContent)

def fsRead (fs : FS) (path : String) : Option FileContent := dictGet fs path

/-- Models `os.path.exists`. -/
def fsExists (fs : FS) (path : String) : Bool := (fsRead fs path).isSome

def fsWrite (fs : FS) (path : String) (c : FileContent) : FS :=
  dictSet fs path c

/-- Models `os.path.join(a, b)` for the simple (relative, non-absolute `b`) case
used by `save` and `load`. -/
def pathJoin (a b : String) : String := a ++ "/" ++ b

/-! ### The Transformer object and its constructor

The constructor (lines 51-95) stores `do_lower_case` verbatim and either
stores the given `max_seq_length` or, when it is `None`, infers it as
`min(auto_model.config.max_position_embeddings, tokenizer.model_max_length)`
when both attributes exist (lines 83-92).  The model and tokenizer loaded by
the constructor belong to the external library; the attributes the
constructor inspects are collected in `ModelEnv`. -/

/-- The attributes of the externally loaded model and tokenizer that the
constructor reads: `none` models a missing attribute (`hasattr` false). -/
structure ModelEnv where
  max_position_embeddings : Option Int
  model_max_length : Option Int
  deriving Repr, DecidableEq

/-- The configuration record carried by a `Transformer` object: the fields
listed in `self.config_keys = ["max_seq_length", "do_lower_case"]`. -/
structure Transformer where
  max_seq_length : Option Int
  do_lower_case : Bool
  deriving Repr, DecidableEq

/-- Lines 83-92: the value stored in `self.max_seq_length`. -/
def initMaxSeqLength (max_seq_length : Option Int) (env : ModelEnv) :
    Option Int :=
  match max_seq_length with
  | some v => some v
  | none =>
    match env.max_position_embeddings, env.model_max_length with
    | some mpe, some mml => some (min mpe mml)
    | _, _ => none

/-- The constructor, restricted to the configuration record (model and
tokenizer instantiation is delegated to the external library). -/
def mkTransformer (env : ModelEnv) (max_seq_length : Option Int)
    (do_lower_case : Bool) : Transformer :=
  { max_seq_length := initMaxSeqLength max_seq_length env,
    do_lower_case := do_lower_case }

/-! ### get_config_dict and save -/

/-- Lines 231-232: `{key: self.__dict__[key] for key in self.config_keys}`
with `config_keys = ["max_seq_length", "do_lower_case"]`, as the JSON object
`json.dump` writes. -/
def Transformer.get_config_dict (t : Transformer) : List (String × Json) :=
  [("max_seq_length", optIntToJson t.max_seq_length),
   ("do_lower_case", Json.bool t.do_lower_case)]

/-- Lines 234-239: `save` delegates model and tokenizer persistence to the
external library (out of scope; those routines write other file names) and
writes the side-config JSON at `output_path/sentence_bert_config.json`. -/
def Transformer.save (t : Transformer) (output_path : String) (fs : FS) :
    FS :=
  fsWrite fs (pathJoin output_path "sentence_bert_config.json")
    (FileContent.json (Json.obj t.get_config_dict))

/-! ### load -/

/-- Lines 244-252: the candidate side-config file names, in order. -/
def configNames : List String :=
  ["sentence_bert_config.json",
   "sentence_roberta_config.json",
   "sentence_distilbert_config.json",
   "sentence_camembert_config.json",
   "sentence_albert_config.json",
   "sentence_xlm-roberta_config.json",
   "sentence_xlnet_config.json"]

/-- The `for`/`break` loop of lines 244-255: `sbert_config_path` is set to
each candidate in turn and the loop breaks at the first existing one; when
none exists the variable keeps its last assigned value. -/
def resolveLoop (ex : String → Bool) (input_path : String) :
    List String → String → String
  | [], last => last
  | n :: rest, _ =>
    let p := pathJoin input_path n
    if ex p then p else resolveLoop ex input_path rest p

/-- The side-config path `load` opens. -/
def resolveConfigPath (ex : String → Bool) (input_path : String) : String :=
  resolveLoop ex input_path configNames ""

/-- Errors propagated by `load`, each directly from a standard library
call: `FileNotFoundError` from `open`, `json.JSONDecodeError` from
`json.load`, `TypeError` from calling the constructor with bad kwargs. -/
inductive LoadError where
  | fileNotFound (path : String) : LoadError
  | jsonDecode (path : String) : LoadError
  | typeError : LoadError
  deriving Repr, DecidableEq

/-- Lines 257-258: open the resolved path and `json.load` it. -/
def loadRaw (fs : FS) (input_path : String) : Except LoadError Json :=
  let path := resolveConfigPath (fsExists fs) input_path
  match fsRead fs path with
  | none => Except.error (LoadError.fileNotFound path)
  | some (FileContent.malformed _) => Except.error (LoadError.jsonDecode path)
  | some (FileContent.json j) => Except.ok j

/-- Python `"trust_remote_code" in j` for a JSON object. -/
def jsonObjHasKey (j : Json) (k : String) : Bool :=
  match j with
  | Json.obj fields => dictHasKey fields k
  | _ => false

/-- Python `j.pop(k)` on a JSON object (leaves non-objects unchanged; `load` only
reaches this on dict-valued entries). -/
def jsonObjRemove (j : Json) (k : String) : Json :=
  match j with
  | Json.obj fields => Json.obj (fields.filter (fun p => p.1 ≠ k))
  | other => other

/-- One `if key in config and "trust_remote_code" in config[key]:
config[key].pop("trust_remote_code")` step of lines 260-265. -/
def popTrustRemoteCode (config : List (String × Json)) (key : String) :
    List (String × Json) :=
  match dictGet config key with
  | none => config
  | some v =>
    if jsonObjHasKey v "trust_remote_code" then
      dictSet config key (jsonObjRemove v "trust_remote_code")
    else config

/-- Lines 259-265: strip `trust_remote_code` from the three nested-args
entries of the loaded config. -/
def stripTrustRemoteCode (config : List (String × Json)) :
    List (String × Json) :=
  popTrustRemoteCode
    (popTrustRemoteCode (popTrustRemoteCode config "model_args")
      "tokenizer_args")
    "config_args"

/-- The keyword parameters of the constructor (line 266 passes the loaded
config as `**config`; any other key raises `TypeError`).
`model_name_or_path` is excluded: `load` already passes it positionally, so
a duplicate also raises `TypeError`. -/
def ctorKwargNames : List String :=
  ["max_seq_length", "model_args", "tokenizer_args", "config_args",
   "cache_dir", "do_lower_case", "tokenizer_name_or_path"]

/-- Decode the `max_seq_length` kwarg.  An absent key uses the default
`None`; non-integer non-null JSON values are routed to `TypeError` (Python
would store them and misbehave later; no config this module writes contains
one). -/
def decodeMaxSeqLength (fields : List (String × Json)) :
    Except LoadError (Option Int) :=
  match dictGet fields "max_seq_length" with
  | none => Except.ok none
  | some Json.null => Except.ok none
  | some (Json.num n) => Except.ok (some n)
  | some _ => Except.error LoadError.typeError

/-- Decode the `do_lower_case` kwarg (default `False`). -/
def decodeDoLowerCase (fields : List (String × Json)) :
    Except LoadError Bool :=
  match dictGet fields "do_lower_case" with
  | none => Except.ok false
  | some (Json.bool b) => Except.ok b
  | some _ => Except.error LoadError.typeError

/-- Line 266: `cls(model_name_or_path=input_path, **config)` — calling the
constructor with the stripped config as keyword arguments. -/
def ctorFromKwargs (env : ModelEnv) (fields : List (String × Json)) :
    Except LoadError Transformer :=
  if fields.all (fun p => decide (p.1 ∈ ctorKwargNames)) then do
    let msl ← decodeMaxSeqLength fields
    let dlc ← decodeDoLowerCase fields
    Except.ok (mkTransformer env msl dlc)
  else Except.error LoadError.typeError

/-- Lines 241-266: `Transformer.load`. -/
def Transformer.load (env : ModelEnv) (fs : FS) (input_path : String) :
    Except LoadError Transformer := do
  let j ← loadRaw fs input_path
  match j with
  | Json.obj fields => ctorFromKwargs env (stripTrustRemoteCode fields)
  | _ => Except.error LoadError.typeError

/-! ### Model-class resolution (lines 97-148)

`_load_config` returns either a `PeftConfig` (when an adapter config file is
found) or whatever class `AutoConfig` resolves; `_load_model` dispatches on
the class of that config.  The external library's config classes that the
`isinstance` checks distinguish are embedded as an inductive. -/

inductive HFConfig where
  | t5 : HFConfig
  | mt5 : HFConfig
  | peft : HFConfig
  | other : HFConfig
  deriving Repr, DecidableEq

def isT5Config : HFConfig → Bool
  | HFConfig.t5 => true
  | _ => false

def isMT5Config : HFConfig → Bool
  | HFConfig.mt5 => true
  | _ => false

def isPeftConfig : HFConfig → Bool
  | HFConfig.peft => true
  | _ => false

/-- The model class instantiated into `self.auto_model`. -/
inductive ModelClass where
  | t5EncoderModel : ModelClass
  | mt5EncoderModel : ModelClass
  | autoModel : ModelClass
  deriving Repr, DecidableEq

/-- The outcome of `_load_model`: which class was instantiated, and whether
`_load_peft_model` wrapped it in a `PeftModel` adapter. -/
structure LoadedModel where
  cls : ModelClass
  peftWrapped : Bool
  deriving Repr, DecidableEq

/-- Lines 113-129: `_load_model` dispatches on the config class, then
`_load_peft_model` wraps the result when the config is a `PeftConfig`. -/
def loadModel (config : HFConfig) : LoadedModel :=
  let cls :=
    if isT5Config config then ModelClass.t5EncoderModel
    else if isMT5Config config then ModelClass.mt5EncoderModel
    else ModelClass.autoModel
  { cls := cls, peftWrapped := isPeftConfig config }

/-! ### Tensors and the forward pass (lines 153-186)

Tensor contents are computed entirely by the external library; the embedding
only tracks tensor identity and the two constructions `forward` itself
performs (`ops.ones` and `ops.cat`). -/

inductive Tensor where
  | raw (tid : Nat) : Tensor
  | ones (rows cols : Int) : Tensor
  | cat2 (a b : Tensor) (dim : Nat) : Tensor
  deriving Repr, DecidableEq

/-- A feature dictionary: string keys to tensors. -/
abbrev Features := List (String × Tensor)

/-- The external `self.auto_model` as `forward` observes it:
`run` is the call `self.auto_model(**trans_features, return_dict=False)`
returning a tuple of tensors; `size0` is `Tensor.size(0)`;
`output_hidden_states` is `self.auto_model.config.output_hidden_states`;
the PEFT fields model the `PeftModelForFeatureExtraction` prompt-learning
check of lines 165-168. -/
structure AutoModelSpec where
  run : Features → List Tensor
  size0 : Tensor → Int
  output_hidden_states : Bool
  isPromptLearningPeft : Bool
  num_virtual_tokens : Int

/-- Lines 154-157: the dict `trans_features` passed to the model call. -/
def transFeatures (input_ids attention_mask : Tensor)
    (token_type_ids : Option Tensor) : Features :=
  match token_type_ids with
  | some tti =>
    [("input_ids", input_ids), ("attention_mask", attention_mask),
     ("token_type_ids", tti)]
  | none =>
    [("input_ids", input_ids), ("attention_mask", attention_mask)]

/-- Line 159: the model call `self.auto_model(**trans_features,
return_dict=False)`, whose result tuple is `output_states`. -/
def runStates (m : AutoModelSpec) (features : Features)
    (input_ids attention_mask : Tensor) : List Tensor :=
  m.run (transFeatures input_ids attention_mask
    (dictGet features "token_type_ids"))

/-- Lines 165-174: under a prompt-learning PEFT model, the attention mask
binding is replaced, in place, by the concatenation of a ones-mask for the
virtual tokens with the original mask. -/
def promptAdjust (m : AutoModelSpec) (features : Features)
    (attention_mask output_tokens : Tensor) : Features :=
  if m.isPromptLearningPeft then
    dictSet features "attention_mask"
      (Tensor.cat2
        (Tensor.ones (m.size0 output_tokens) m.num_virtual_tokens)
        attention_mask 1)
  else features

/-- Lines 178-184: store `all_layer_embeddings` when the model outputs
hidden states and the output tuple is long enough.  `all_layer_idx` is
always 2 here: the `< 3` reassignment on line 180 is unreachable under the
`> 2` guard of line 178. -/
def addHiddenStates (m : AutoModelSpec) (output_states : List Tensor)
    (features2 : Features) : Option Features :=
  if m.output_hidden_states && decide (output_states.length > 2) then
    match output_states.get? (if output_states.length < 3 then 1 else 2) with
    | none => none
    | some hidden_states =>
      some (dictSet features2 "all_layer_embeddings" hidden_states)
  else some features2

/-- Lines 153-186: the forward pass.  `none` models the uncaught Python
exceptions (KeyError on a missing input key, IndexError on an empty model
output tuple). -/
def Transformer.forward (m : AutoModelSpec) (features : Features) :
    Option Features :=
  match dictGet features "input_ids", dictGet features "attention_mask" with
  | some input_ids, some attention_mask =>
    match (runStates m features input_ids attention_mask).head? with
    | none => none
    | some output_tokens =>
      addHiddenStates m (runStates m features input_ids attention_mask)
        (dictSet (promptAdjust m features attention_mask output_tokens)
          "token_embeddings" output_tokens)
  | _, _ => none

/-! ### Tokenization (lines 191-229) -/

/-- The three accepted input shapes: plain strings, single-entry dicts
(key-tagged strings), and sentence pairs.  A `dict` carries the entry list
that `next(iter(lookup.items()))` inspects. -/
inductive TextInput where
  | str (s : String) : TextInput
  | dict (entries : List (String × String)) : TextInput
  | pair (a b : String) : TextInput
  deriving Repr, DecidableEq

/-- Values of the dict `tokenize` returns: tensors from the tokenizer, plus
the list of dict keys stored under `"text_keys"`. -/
inductive TokValue where
  | tensor (t : Tensor) : TokValue
  | textKeys (ks : List String) : TokValue
  deriving Repr, DecidableEq

/-- The external tokenizer: called on one or two batches of strings
(`self.tokenizer(*to_tokenize, ...)`) with the object's `max_seq_length`,
returning an encoding dict of tensors. -/
structure TokenizerSpec where
  run : List (List String) → Option Int → List (String × Tensor)

/-- Python `str(s).strip()` then the conditional `.lower()` of lines 214-218,
applied per element. -/
def normText (do_lower_case : Bool) (s : String) : String :=
  if do_lower_case then s.trim.toLower else s.trim

/-- Build a batch by applying an element extractor to every list element,
propagating failure (the Python loops of lines 196-211 with the exceptions
a shape-mismatched element would raise). -/
def extractAll {β : Type u} (f : TextInput → Option β) :
    List TextInput → Option (List β)
  | [] => some []
  | t :: ts =>
    match f t, extractAll f ts with
    | some b, some bs => some (b :: bs)
    | _, _ => none

/-- A plain string element of the strings branch (line 196). -/
def extractStr : TextInput → Option String
  | TextInput.str s => some s
  | _ => none

/-- Python `next(iter(lookup.items()))` of line 202: the first entry of a dict
element (StopIteration on an empty dict). -/
def extractDictEntry : TextInput → Option (String × String)
  | TextInput.dict ((k, v) :: _) => some (k, v)
  | _ => none

/-- Python `text_tuple[0]`, `text_tuple[1]` of lines 209-210: a pair element. -/
def extractPair : TextInput → Option (String × String)
  | TextInput.pair a b => some (a, b)
  | _ => none

/-- Tag an encoding dict of tensors as `tokenize` output values. -/
def tensorValues (enc : List (String × Tensor)) :
    List (String × TokValue) :=
  enc.map (fun kv => (kv.1, TokValue.tensor kv.2))

/-- Lines 195-211: the branch on the type of `texts[0]`, producing the
initial `output` dict and the `to_tokenize` batch list. -/
def shapeDispatch (texts : List TextInput) :
    TextInput → Option (List (String × TokValue) × List (List String))
  | TextInput.str _ =>
    match extractAll extractStr texts with
    | none => none
    | some ss => some ([], [ss])
  | TextInput.dict _ =>
    match extractAll extractDictEntry texts with
    | none => none
    | some kvs =>
      some ([("text_keys", TokValue.textKeys (kvs.map Prod.fst))],
        [kvs.map Prod.snd])
  | TextInput.pair _ _ =>
    match extractAll extractPair texts with
    | none => none
    | some ps => some ([], [ps.map Prod.fst, ps.map Prod.snd])

/-- Lines 213-218: strip every element of every batch, then lowercase them
when `do_lower_case` is set. -/
def normBatches (do_lower_case : Bool) (to_tokenize : List (List String)) :
    List (List String) :=
  if do_lower_case then
    (to_tokenize.map (fun col => col.map String.trim)).map
      (fun col => col.map String.toLower)
  else to_tokenize.map (fun col => col.map String.trim)

/-- Lines 191-229: `tokenize`.  The branch is chosen by the type of
`texts[0]`; `none` models the uncaught exceptions: IndexError on an empty
input list, and the failures raised on lists mixing shapes or containing an
empty dict, which are not accepted input shapes. -/
def Transformer.tokenize (tok : TokenizerSpec) (do_lower_case : Bool)
    (max_seq_length : Option Int) (texts : List TextInput) :
    Option (List (String × TokValue)) :=
  match texts with
  | [] => none
  | first :: _ =>
    match shapeDispatch texts first with
    | none => none
    | some (output, to_tokenize) =>
      some (dictUpdate output
        (tensorValues (tok.run (normBatches do_lower_case to_tokenize)
          max_seq_length)))


/-! ### Concrete instances shared by witnesses and counterexamples -/

/-- A concrete tokenizer whose encoding dict is fixed: two of the expected
keys, no duplicates. -/
def fixedTokenizer : TokenizerSpec :=
  ⟨fun _ _ => [("input_ids", Tensor.raw 0), ("attention_mask", Tensor.raw 1)]⟩

/-- A concrete model whose output tuple is a single tensor. -/
def fixedModel : AutoModelSpec :=
  { run := fun _ => [Tensor.raw 0], size0 := fun _ => 1,
    output_hidden_states := false, isPromptLearningPeft := false,
    num_virtual_tokens := 0 }

/-! ### Dictionary lemmas -/

theorem dictGet_dictSet_self {α : Type u} (d : List (String × α))
    (k : String) (v : α) : dictGet (dictSet d k v) k = some v := by
  induction d with
  | nil => simp [dictGet, dictSet]
  | cons hd tl ih =>
    obtain ⟨k', v'⟩ := hd
    by_cases h : k' = k <;> simp [dictGet, dictSet, h, ih]

theorem dictGet_dictSet_ne {α : Type u} (d : List (String × α))
    (k k' : String) (v : α) (h : k' ≠ k) :
    dictGet (dictSet d k v) k' = dictGet d k' := by
  have h' : k ≠ k' := Ne.symm h
  induction d with
  | nil => simp [dictGet, dictSet, h']
  | cons hd tl ih =>
    obtain ⟨k0, v0⟩ := hd
    by_cases h0 : k0 = k
    · subst h0
      simp [dictGet, dictSet, h']
    · by_cases h1 : k0 = k' <;> simp [dictGet, dictSet, h0, h1, h, h', ih]

theorem mem_dictKeys_dictSet {α : Type u} (d : List (String × α))
    (k : String) (v : α) (k' : String)
    (h : k' ∈ dictKeys (dictSet d k v)) : k' = k ∨ k' ∈ dictKeys d := by
  induction d with
  | nil => simpa [dictKeys, dictSet] using h
  | cons hd tl ih =>
    obtain ⟨k0, v0⟩ := hd
    by_cases h0 : k0 = k
    · subst h0
      simpa [dictKeys, dictSet] using h
    · simp only [dictKeys, dictSet, h0, if_false, List.map_cons,
        List.mem_cons] at h ⊢
      rcases h with h | h
      · exact Or.inr (Or.inl h)
      · rcases ih h with h | h
        · exact Or.inl h
        · exact Or.inr (Or.inr h)

theorem mem_dictKeys_dictUpdate {α : Type u} (o d : List (String × α))
    (k' : String) (h : k' ∈ dictKeys (dictUpdate d o)) :
    k' ∈ dictKeys d ∨ k' ∈ dictKeys o := by
  induction o generalizing d with
  | nil => exact Or.inl h
  | cons hd tl ih =>
    obtain ⟨k0, v0⟩ := hd
    simp only [dictUpdate, List.foldl_cons] at h
    rcases ih (dictSet d k0 v0) (by simpa [dictUpdate] using h) with h | h
    · rcases mem_dictKeys_dictSet d k0 v0 k' h with h | h
      · exact Or.inr (by simp [dictKeys, h])
      · exact Or.inl h
    · exact Or.inr (by simp [dictKeys] at h ⊢; exact Or.inr h)

theorem dictSet_eq_append_of_not_mem {α : Type u} (d : List (String × α))
    (k : String) (v : α) (h : k ∉ dictKeys d) :
    dictSet d k v = d ++ [(k, v)] := by
  induction d with
  | nil => simp [dictSet]
  | cons hd tl ih =>
    obtain ⟨k0, v0⟩ := hd
    simp only [dictKeys, List.map_cons, List.mem_cons] at h
    push_neg at h
    have h0 : k0 ≠ k := Ne.symm h.1
    simp [dictSet, h0, ih h.2]

theorem dictUpdate_eq_append {α : Type u} (o d : List (String × α))
    (hnd : (dictKeys o).Nodup) (hdisj : ∀ k ∈ dictKeys o, k ∉ dictKeys d) :
    dictUpdate d o = d ++ o := by
  induction o generalizing d with
  | nil => simp [dictUpdate]
  | cons hd tl ih =>
    obtain ⟨k0, v0⟩ := hd
    simp only [dictKeys, List.map_cons, List.nodup_cons] at hnd
    have hk0 : k0 ∉ dictKeys d := hdisj k0 (by simp [dictKeys])
    have step : dictUpdate d ((k0, v0) :: tl) =
        dictUpdate (d ++ [(k0, v0)]) tl := by
      simp [dictUpdate, dictSet_eq_append_of_not_mem d k0 v0 hk0]
    have hdisj2 : ∀ k ∈ dictKeys tl, k ∉ dictKeys (d ++ [(k0, v0)]) := by
      intro k hk
      have hmem2 : k ∈ dictKeys ((k0, v0) :: tl) := by
        simp only [dictKeys, List.map_cons, List.mem_cons]
        exact Or.inr hk
      simp only [dictKeys, List.map_append, List.mem_append, List.map_cons,
        List.map_nil, List.mem_singleton]
      push_neg
      refine ⟨fun hmem => hdisj k hmem2 hmem, ?_⟩
      intro hek
      exact absurd (hek ▸ hk) hnd.1
    rw [step, ih (d ++ [(k0, v0)]) hnd.2 hdisj2, List.append_assoc]
    simp

theorem dictKeys_tensorValues (enc : List (String × Tensor)) :
    dictKeys (tensorValues enc) = dictKeys enc := by
  simp [dictKeys, tensorValues, List.map_map]

theorem mem_dictKeys_of_dictGet {α : Type u} (d : List (String × α))
    (k : String) (v : α) (h : dictGet d k = some v) : k ∈ dictKeys d := by
  induction d with
  | nil => cases h
  | cons hd tl ih =>
    obtain ⟨k0, v0⟩ := hd
    by_cases h0 : k0 = k
    · simp [dictKeys, h0]
    · rw [show dictGet ((k0, v0) :: tl) k = dictGet tl k by
        simp [dictGet, h0]] at h
      exact List.mem_cons_of_mem k0 (ih h)

theorem fsRead_fsWrite_self (fs : FS) (p : String) (c : FileContent) :
    fsRead (fsWrite fs p c) p = some c :=
  dictGet_dictSet_self fs p c

/-! ### Forward-pass lemmas -/

/-- The shapes a successful `addHiddenStates` can return. -/
theorem addHiddenStates_cases (m : AutoModelSpec) (OS : List Tensor)
    (F2 res : Features) (h : addHiddenStates m OS F2 = some res) :
    res = F2 ∨ ∃ hs, res = dictSet F2 "all_layer_embeddings" hs := by
  unfold addHiddenStates at h
  split at h
  · split at h
    · exact Option.noConfusion h
    · rename_i hs hget
      injection h with h
      exact Or.inr ⟨hs, h.symm⟩
  · injection h with h
    exact Or.inl h.symm

theorem mem_dictKeys_promptAdjust (m : AutoModelSpec) (features : Features)
    (am ot : Tensor) (k : String)
    (hk : k ∈ dictKeys (promptAdjust m features am ot)) :
    k = "attention_mask" ∨ k ∈ dictKeys features := by
  unfold promptAdjust at hk
  split at hk
  · exact mem_dictKeys_dictSet _ _ _ _ hk
  · exact Or.inr hk

theorem promptAdjust_of_not_peft (m : AutoModelSpec) (features : Features)
    (am ot : Tensor) (hp : m.isPromptLearningPeft = false) :
    promptAdjust m features am ot = features := by
  simp [promptAdjust, hp]

/-! ### Batch-extraction lemmas -/

theorem extractAll_map_str (ss : List String) :
    extractAll extractStr (ss.map TextInput.str) = some ss := by
  induction ss with
  | nil => rfl
  | cons s tl ih => simp [extractAll, extractStr, ih]

theorem extractAll_map_dict (kvs : List (String × String)) :
    extractAll extractDictEntry
      (kvs.map (fun p => TextInput.dict [p])) = some kvs := by
  induction kvs with
  | nil => rfl
  | cons kv tl ih => simp [extractAll, extractDictEntry, ih]

theorem extractAll_map_pair (ps : List (String × String)) :
    extractAll extractPair
      (ps.map (fun q => TextInput.pair q.1 q.2)) = some ps := by
  induction ps with
  | nil => rfl
  | cons p tl ih => simp [extractAll, extractPair, ih]

/-- The strip-then-lowercase pipeline of lines 213-218 equals a single
per-element normalization. -/
theorem normBatches_eq (dl : Bool) (cols : List (List String)) :
    normBatches dl cols = cols.map (fun col => col.map (normText dl)) := by
  cases dl <;> simp [normBatches, normText, List.map_map, Function.comp]

/-! ### Config-resolution lemmas -/

/-- The `for`/`break` loop returns the first existing candidate, and the
last candidate when none exists. -/
theorem resolveLoop_eq_find (ex : String → Bool) (ip : String)
    (names : List String) (last : String) :
    resolveLoop ex ip names last =
      match names.find? (fun n => ex (pathJoin ip n)) with
      | some n => pathJoin ip n
      | none =>
        match names.getLast? with
        | some n => pathJoin ip n
        | none => last := by
  induction names generalizing last with
  | nil => rfl
  | cons n rest ih =>
    by_cases h : ex (pathJoin ip n)
    · simp [resolveLoop, h, List.find?]
    · rw [show resolveLoop ex ip (n :: rest) last =
          resolveLoop ex ip rest (pathJoin ip n) by simp [resolveLoop, h]]
      rw [ih (pathJoin ip n)]
      simp only [List.find?, h]
      cases hf : rest.find? (fun n => ex (pathJoin ip n)) with
      | some m => simp
      | none =>
        cases rest with
        | nil => simp
        | cons r rs =>
          simp only [List.getLast?_cons_cons]
          cases hg : (r :: rs).getLast? with
          | some m => simp
          | none => simp at hg

/-! ### trust_remote_code stripping lemmas -/

/-- Removing a key from an association list by filtering makes its lookup
fail. -/
theorem dictGet_filter_self_none {α : Type u} (d : List (String × α))
    (k : String) :
    dictGet (d.filter (fun p => p.1 ≠ k)) k = none := by
  induction d with
  | nil => rfl
  | cons hd tl ih =>
    obtain ⟨k0, v0⟩ := hd
    by_cases h : k0 = k
    · simpa [List.filter_cons, h] using ih
    · simpa [List.filter_cons, h, dictGet] using ih

theorem jsonObjHasKey_remove (j : Json) (k : String) :
    jsonObjHasKey (jsonObjRemove j k) k = false := by
  cases j with
  | obj fields =>
    have hnone := dictGet_filter_self_none fields k
    simp only [ne_eq, decide_not] at hnone
    simp [jsonObjRemove, jsonObjHasKey, dictHasKey, hnone]
  | null => rfl
  | bool b => rfl
  | num n => rfl
  | str s => rfl

theorem dictGet_popTrustRemoteCode_self (c : List (String × Json))
    (k : String) (j : Json)
    (h : dictGet (popTrustRemoteCode c k) k = some j) :
    jsonObjHasKey j "trust_remote_code" = false := by
  unfold popTrustRemoteCode at h
  split at h
  · -- dictGet c k = none: the config was untouched, contradiction with h
    rename_i hc
    rw [hc] at h
    cases h
  · rename_i v hc
    split at h
    · rw [dictGet_dictSet_self] at h
      cases h
      exact jsonObjHasKey_remove v "trust_remote_code"
    · rename_i hv
      rw [hc] at h
      cases h
      exact Bool.eq_false_iff.mpr hv

theorem dictGet_popTrustRemoteCode_ne (c : List (String × Json))
    (k k' : String) (h : k' ≠ k) :
    dictGet (popTrustRemoteCode c k) k' = dictGet c k' := by
  unfold popTrustRemoteCode
  split
  · rfl
  · split
    · rw [dictGet_dictSet_ne c k k' _ h]
    · rfl

/-! ### Claim theorems -/

/-- Claim C5: model-class resolution during construction.  A `T5Config`
yields the T5 encoder-only class, an `MT5Config` the MT5 encoder-only
class, any other configuration the plain `AutoModel` class, and exactly
when the configuration is a `PeftConfig` the instantiated model is
additionally wrapped as a parameter-efficient adapter model. -/
theorem claim_C5_model_class_resolution :
    loadModel HFConfig.t5 =
      { cls := ModelClass.t5EncoderModel, peftWrapped := false } ∧
    loadModel HFConfig.mt5 =
      { cls := ModelClass.mt5EncoderModel, peftWrapped := false } ∧
    loadModel HFConfig.other =
      { cls := ModelClass.autoModel, peftWrapped := false } ∧
    loadModel HFConfig.peft =
      { cls := ModelClass.autoModel, peftWrapped := true } ∧
    (∀ c : HFConfig, (loadModel c).peftWrapped = isPeftConfig c) := by
  refine ⟨rfl, rfl, rfl, rfl, ?_⟩
  intro c
  cases c <;> rfl

/-- Claim C10: `tokenize` on the empty list fails at the `texts[0]` access
(IndexError), for every tokenizer alike — so before any tokenizer call —
and every successful call has a non-empty input list. -/
theorem claim_C10_tokenize_nonempty :
    (∀ (tok : TokenizerSpec) (dl : Bool) (msl : Option Int),
      Transformer.tokenize tok dl msl [] = none) ∧
    (∀ (tok : TokenizerSpec) (dl : Bool) (msl : Option Int)
      (texts : List TextInput) (res : List (String × TokValue)),
      Transformer.tokenize tok dl msl texts = some res → texts ≠ []) := by
  refine ⟨fun tok dl msl => rfl, ?_⟩
  intro tok dl msl texts res h hempty
  subst hempty
  exact Option.noConfusion h

/-- Claim C10, witnessed at a concrete tokenizer and input. -/
theorem claim_C10_tokenize_nonempty_witness :
    Transformer.tokenize fixedTokenizer false none [] = none ∧
    ([TextInput.str "hello"] : List TextInput) ≠ [] :=
  ⟨claim_C10_tokenize_nonempty.1 fixedTokenizer false none,
   claim_C10_tokenize_nonempty.2 fixedTokenizer false none
     [TextInput.str "hello"]
     [("input_ids", TokValue.tensor (Tensor.raw 0)),
      ("attention_mask", TokValue.tensor (Tensor.raw 1))] rfl⟩

/-- Claim C3, counterexample: for a dict-shaped input, the dictionary
returned by `tokenize` contains the key `"text_keys"`, which is not among
the keys the forward pass reads (`input_ids`, `attention_mask`,
`token_type_ids`) — even though the tokenizer itself only emitted expected
keys (third conjunct). -/
theorem claim_C3_counterexample :
    Transformer.tokenize fixedTokenizer false none
        [TextInput.dict [("query", "hello")]] =
      some [("text_keys", TokValue.textKeys ["query"]),
        ("input_ids", TokValue.tensor (Tensor.raw 0)),
        ("attention_mask", TokValue.tensor (Tensor.raw 1))] ∧
    dictKeys (fixedTokenizer.run [["hello"]] none) =
      ["input_ids", "attention_mask"] ∧
    "text_keys" ∈ dictKeys [("text_keys", TokValue.textKeys ["query"]),
        ("input_ids", TokValue.tensor (Tensor.raw 0)),
        ("attention_mask", TokValue.tensor (Tensor.raw 1))] ∧
    "text_keys" ∉
      (["input_ids", "attention_mask", "token_type_ids"] : List String) := by
  refine ⟨rfl, rfl, ?_, ?_⟩ <;> decide

/-- Claim C2, counterexample: after a forward pass the returned dictionary
holds exactly the input keys plus the token-level entry
`"token_embeddings"` — there is no pooled-embedding entry (the code's own
docstring promises a `cls_token`, but none is produced). -/
theorem claim_C2_counterexample :
    Transformer.forward fixedModel
        [("input_ids", Tensor.raw 1), ("attention_mask", Tensor.raw 2)] =
      some [("input_ids", Tensor.raw 1), ("attention_mask", Tensor.raw 2),
        ("token_embeddings", Tensor.raw 0)] ∧
    dictKeys [("input_ids", Tensor.raw 1), ("attention_mask", Tensor.raw 2),
        ("token_embeddings", Tensor.raw 0)] =
      ["input_ids", "attention_mask", "token_embeddings"] ∧
    "token_embeddings" ∈
      (["input_ids", "attention_mask", "token_embeddings"] : List String) ∧
    "cls_token" ∉
      (["input_ids", "attention_mask", "token_embeddings"] : List String) ∧
    "sentence_embedding" ∉
      (["input_ids", "attention_mask", "token_embeddings"] : List String) := by
  refine ⟨rfl, rfl, ?_, ?_, ?_⟩ <;> decide

/-- Claim C1, counterexample: a `Transformer` whose `max_seq_length` is
`None` saves the sidecar with `"max_seq_length": null`, but `load` passes
`None` to the constructor, which re-infers `max_seq_length` from the model
and tokenizer (here `min(512, 510) = 510`), so the loaded object's
`max_seq_length` differs from the saved value. -/
theorem claim_C1_counterexample :
    ((⟨none, true⟩ : Transformer).max_seq_length = none) ∧
    (fsRead (Transformer.save ⟨none, true⟩ "model_dir" [])
        (pathJoin "model_dir" "sentence_bert_config.json") =
      some (FileContent.json (Json.obj
        [("max_seq_length", Json.null),
         ("do_lower_case", Json.bool true)]))) ∧
    (Transformer.load ⟨some 512, some 510⟩
        (Transformer.save ⟨none, true⟩ "model_dir" []) "model_dir" =
      Except.ok ⟨some 510, true⟩) ∧
    (some (510 : Int) ≠ (none : Option Int)) := by
  refine ⟨rfl, rfl, rfl, ?_⟩
  simp

/-- Claim C9: `load` sanitizes remote-code flags.  After the stripping step
of lines 259-265, none of the `model_args`, `tokenizer_args` or
`config_args` entries of the config passed to the constructor contains the
key `trust_remote_code`. -/
theorem claim_C9_strip_trust_remote_code (fields : List (String × Json)) :
    (∀ j, dictGet (stripTrustRemoteCode fields) "model_args" = some j →
      jsonObjHasKey j "trust_remote_code" = false) ∧
    (∀ j, dictGet (stripTrustRemoteCode fields) "tokenizer_args" = some j →
      jsonObjHasKey j "trust_remote_code" = false) ∧
    (∀ j, dictGet (stripTrustRemoteCode fields) "config_args" = some j →
      jsonObjHasKey j "trust_remote_code" = false) := by
  unfold stripTrustRemoteCode
  refine ⟨?_, ?_, ?_⟩
  · intro j h
    rw [dictGet_popTrustRemoteCode_ne _ _ _ (by decide),
      dictGet_popTrustRemoteCode_ne _ _ _ (by decide)] at h
    exact dictGet_popTrustRemoteCode_self _ _ _ h
  · intro j h
    rw [dictGet_popTrustRemoteCode_ne _ _ _ (by decide)] at h
    exact dictGet_popTrustRemoteCode_self _ _ _ h
  · intro j h
    exact dictGet_popTrustRemoteCode_self _ _ _ h

/-- Claim C9, witnessed on a config whose `model_args` carries
`trust_remote_code`: the entry reaching the constructor no longer has the
key. -/
theorem claim_C9_strip_trust_remote_code_witness :
    jsonObjHasKey (Json.obj []) "trust_remote_code" = false :=
  (claim_C9_strip_trust_remote_code
    [("model_args", Json.obj [("trust_remote_code", Json.bool true)])]).1
    (Json.obj []) rfl

/-- Claim C7: the side-config file name is resolved against the fixed
candidate list in order — `sentence_bert_config.json` first, then the
legacy variants — taking the first existing one (and falling back to the
last candidate name when none exists); the fields of the chosen JSON file
are the ones passed to the constructor. -/
theorem claim_C7_config_name_resolution (ex : String → Bool) (fs : FS)
    (env : ModelEnv) (input_path : String) :
    (resolveConfigPath ex input_path =
      match configNames.find? (fun n => ex (pathJoin input_path n)) with
      | some n => pathJoin input_path n
      | none => pathJoin input_path "sentence_xlnet_config.json") ∧
    (ex (pathJoin input_path "sentence_bert_config.json") = true →
      resolveConfigPath ex input_path =
        pathJoin input_path "sentence_bert_config.json") ∧
    (∀ fields, fsRead fs (resolveConfigPath (fsExists fs) input_path) =
        some (FileContent.json (Json.obj fields)) →
      Transformer.load env fs input_path =
        ctorFromKwargs env (stripTrustRemoteCode fields)) := by
  have h1 : resolveConfigPath ex input_path =
      match configNames.find? (fun n => ex (pathJoin input_path n)) with
      | some n => pathJoin input_path n
      | none => pathJoin input_path "sentence_xlnet_config.json" := by
    rw [resolveConfigPath, resolveLoop_eq_find]
    cases hf : configNames.find? (fun n => ex (pathJoin input_path n)) with
    | some n => simp
    | none => rfl
  refine ⟨h1, ?_, ?_⟩
  · intro hex
    rw [h1]
    simp [configNames, List.find?, hex]
  · intro fields hfield
    simp only [Transformer.load, loadRaw, hfield]
    rfl

/-- Claim C7, witnessed on a filesystem holding only the legacy
`sentence_roberta_config.json`: the resolver picks it, and `load` passes
its fields to the constructor. -/
theorem claim_C7_config_name_resolution_witness :
    (resolveConfigPath (fun _ => true) "in" =
      pathJoin "in" "sentence_bert_config.json") ∧
    (Transformer.load ⟨none, none⟩
        [(pathJoin "in" "sentence_roberta_config.json",
          FileContent.json (Json.obj [("do_lower_case", Json.bool true)]))]
        "in" =
      ctorFromKwargs ⟨none, none⟩
        (stripTrustRemoteCode [("do_lower_case", Json.bool true)])) :=
  ⟨(claim_C7_config_name_resolution (fun _ => true)
      [] ⟨none, none⟩ "in").2.1 rfl,
   (claim_C7_config_name_resolution (fun _ => false)
      [(pathJoin "in" "sentence_roberta_config.json",
        FileContent.json (Json.obj [("do_lower_case", Json.bool true)]))]
      ⟨none, none⟩ "in").2.2
     [("do_lower_case", Json.bool true)] rfl⟩

/-- Claim C8: errors propagate without custom handling.  When no candidate
config name exists in `input_path`, `load` fails with the file-open error
on the last candidate name (`sentence_xlnet_config.json`); when the chosen
file is not valid JSON, it fails with the JSON parsing error; in both cases
no `Transformer` is constructed and the error is not translated. -/
theorem claim_C8_error_propagation (fs : FS) (env : ModelEnv)
    (input_path : String) :
    ((∀ n ∈ configNames, fsRead fs (pathJoin input_path n) = none) →
      Transformer.load env fs input_path =
        Except.error (LoadError.fileNotFound
          (pathJoin input_path "sentence_xlnet_config.json"))) ∧
    (∀ raw, fsRead fs (resolveConfigPath (fsExists fs) input_path) =
        some (FileContent.malformed raw) →
      Transformer.load env fs input_path =
        Except.error (LoadError.jsonDecode
          (resolveConfigPath (fsExists fs) input_path))) := by
  constructor
  · intro h
    have hfind : configNames.find?
        (fun n => fsExists fs (pathJoin input_path n)) = none := by
      rw [List.find?_eq_none]
      intro n hn
      simp [fsExists, h n hn]
    have hres : resolveConfigPath (fsExists fs) input_path =
        pathJoin input_path "sentence_xlnet_config.json" := by
      rw [resolveConfigPath, resolveLoop_eq_find, hfind]
      rfl
    have hxl : fsRead fs
        (pathJoin input_path "sentence_xlnet_config.json") = none :=
      h "sentence_xlnet_config.json" (by simp [configNames])
    simp only [Transformer.load, loadRaw, hres, hxl]
    rfl
  · intro raw hraw
    simp only [Transformer.load, loadRaw, hraw]
    rfl

/-- Claim C8, witnessed on an empty filesystem (no candidate exists) and on
a filesystem whose `sentence_bert_config.json` is malformed. -/
theorem claim_C8_error_propagation_witness :
    (Transformer.load ⟨none, none⟩ [] "p" =
      Except.error (LoadError.fileNotFound
        (pathJoin "p" "sentence_xlnet_config.json"))) ∧
    (Transformer.load ⟨none, none⟩
        [(pathJoin "p" "sentence_bert_config.json",
          FileContent.malformed "not json")] "p" =
      Except.error (LoadError.jsonDecode
        (resolveConfigPath
          (fsExists [(pathJoin "p" "sentence_bert_config.json",
            FileContent.malformed "not json")]) "p"))) :=
  ⟨(claim_C8_error_propagation [] ⟨none, none⟩ "p").1 (fun _ _ => rfl),
   (claim_C8_error_propagation
      [(pathJoin "p" "sentence_bert_config.json",
        FileContent.malformed "not json")] ⟨none, none⟩ "p").2
     "not json" rfl⟩

/-- Claim C1 (amended): the sidecar written by `save` contains exactly the
fields `max_seq_length` and `do_lower_case` with the object's current
values, and `load` restores `do_lower_case` verbatim and `max_seq_length`
verbatim whenever it is not `None`; a saved `None` is instead re-inferred
by the constructor from the loaded model and tokenizer. -/
theorem claim_C1_roundtrip_amended (t : Transformer) (out : String)
    (fs : FS) (env : ModelEnv) :
    (fsRead (t.save out fs) (pathJoin out "sentence_bert_config.json") =
      some (FileContent.json (Json.obj
        [("max_seq_length", optIntToJson t.max_seq_length),
         ("do_lower_case", Json.bool t.do_lower_case)]))) ∧
    (Transformer.load env (t.save out fs) out =
      Except.ok (mkTransformer env t.max_seq_length t.do_lower_case)) ∧
    (∀ v, t.max_seq_length = some v →
      Transformer.load env (t.save out fs) out =
        Except.ok { max_seq_length := some v,
                    do_lower_case := t.do_lower_case }) ∧
    (∀ t', Transformer.load env (t.save out fs) out = Except.ok t' →
      t'.do_lower_case = t.do_lower_case) := by
  have h1 : fsRead (t.save out fs)
      (pathJoin out "sentence_bert_config.json") =
      some (FileContent.json (Json.obj t.get_config_dict)) := by
    simp [Transformer.save, fsRead_fsWrite_self]
  have hex : fsExists (t.save out fs)
      (pathJoin out "sentence_bert_config.json") = true := by
    simp [fsExists, h1]
  have hres : resolveConfigPath (fsExists (t.save out fs)) out =
      pathJoin out "sentence_bert_config.json" := by
    simp [resolveConfigPath, configNames, resolveLoop, hex]
  have hctor : ctorFromKwargs env (stripTrustRemoteCode t.get_config_dict) =
      Except.ok (mkTransformer env t.max_seq_length t.do_lower_case) := by
    obtain ⟨msl, dlc⟩ := t
    cases msl <;> rfl
  have h2 : Transformer.load env (t.save out fs) out =
      Except.ok (mkTransformer env t.max_seq_length t.do_lower_case) := by
    simp only [Transformer.load, loadRaw, hres, h1]
    exact hctor
  refine ⟨h1, h2, ?_, ?_⟩
  · intro v hv
    rw [h2, hv]
    rfl
  · intro t' ht
    rw [h2] at ht
    injection ht with h3
    subst h3
    rfl

/-- Claim C1 (amended), witnessed at a concrete saved object with a
non-`None` max_seq_length. -/
theorem claim_C1_roundtrip_amended_witness :
    (Transformer.load ⟨some 512, some 512⟩
        (Transformer.save ⟨some 128, true⟩ "m" []) "m" =
      Except.ok { max_seq_length := some (128 : Int),
                  do_lower_case := true }) ∧
    (Transformer.mk (some 128) true).do_lower_case =
      (Transformer.mk (some 128) true).do_lower_case :=
  ⟨(claim_C1_roundtrip_amended ⟨some 128, true⟩ "m" []
      ⟨some 512, some 512⟩).2.2.1 128 rfl,
   (claim_C1_roundtrip_amended ⟨some 128, true⟩ "m" []
      ⟨some 512, some 512⟩).2.2.2 ⟨some 128, true⟩ rfl⟩

/-- Claim C2 (amended): after a successful forward pass the result contains
the token-level entry `"token_embeddings"`, and the only keys possibly
added to the input dictionary are `"token_embeddings"` and
`"all_layer_embeddings"` — `forward` produces no pooled-embedding entry. -/
theorem claim_C2_forward_embeddings (m : AutoModelSpec)
    (features res : Features)
    (h : Transformer.forward m features = some res) :
    dictHasKey res "token_embeddings" = true ∧
    (∀ k ∈ dictKeys res, k ∈ dictKeys features ∨
      k = "token_embeddings" ∨ k = "all_layer_embeddings") := by
  unfold Transformer.forward at h
  split at h
  · rename_i input_ids attention_mask hiid ham
    split at h
    · exact Option.noConfusion h
    · rename_i output_tokens hhead
      have hPA : ∀ k, k ∈ dictKeys (promptAdjust m features attention_mask
          output_tokens) → k ∈ dictKeys features := by
        intro k hk
        rcases mem_dictKeys_promptAdjust _ _ _ _ _ hk with h' | h'
        · subst h'
          exact mem_dictKeys_of_dictGet features _ attention_mask ham
        · exact h'
      rcases addHiddenStates_cases _ _ _ _ h with hres | ⟨hs, hres⟩
      · subst hres
        constructor
        · simp [dictHasKey, dictGet_dictSet_self]
        · intro k hk
          rcases mem_dictKeys_dictSet _ _ _ _ hk with h' | h'
          · exact Or.inr (Or.inl h')
          · exact Or.inl (hPA k h')
      · subst hres
        constructor
        · simp [dictHasKey, dictGet_dictSet_ne _ _ _ _
            (by decide :
              ("token_embeddings" : String) ≠ "all_layer_embeddings"),
            dictGet_dictSet_self]
        · intro k hk
          rcases mem_dictKeys_dictSet _ _ _ _ hk with h' | h'
          · exact Or.inr (Or.inr h')
          · rcases mem_dictKeys_dictSet _ _ _ _ h' with h'' | h''
            · exact Or.inr (Or.inl h'')
            · exact Or.inl (hPA k h'')
  · exact Option.noConfusion h

/-- Claim C2 (amended), witnessed at a concrete model and features. -/
theorem claim_C2_forward_embeddings_witness :
    dictHasKey [("input_ids", Tensor.raw 1), ("attention_mask", Tensor.raw 2),
        ("token_embeddings", Tensor.raw 0)] "token_embeddings" = true ∧
    (∀ k ∈ dictKeys [("input_ids", Tensor.raw 1),
        ("attention_mask", Tensor.raw 2),
        ("token_embeddings", Tensor.raw 0)],
      k ∈ dictKeys [("input_ids", Tensor.raw 1),
        ("attention_mask", Tensor.raw 2)] ∨
      k = "token_embeddings" ∨ k = "all_layer_embeddings") :=
  claim_C2_forward_embeddings fixedModel
    [("input_ids", Tensor.raw 1), ("attention_mask", Tensor.raw 2)]
    [("input_ids", Tensor.raw 1), ("attention_mask", Tensor.raw 2),
      ("token_embeddings", Tensor.raw 0)] rfl

/-- Claim C4: `forward` mutates the feature dictionary in place (embedded
as value-level update semantics on the threaded dictionary): on success the
result holds a `"token_embeddings"` binding, and — when the wrapped model
is not a prompt-learning PEFT model — every key other than the added
`"token_embeddings"`/`"all_layer_embeddings"` still maps to exactly its
original tensor (in particular `input_ids`, `attention_mask` and
`token_type_ids` are framed). -/
theorem claim_C4_forward_frame (m : AutoModelSpec) (features res : Features)
    (hp : m.isPromptLearningPeft = false)
    (h : Transformer.forward m features = some res) :
    (∃ tokens, dictGet res "token_embeddings" = some tokens) ∧
    (∀ k, k ≠ "token_embeddings" → k ≠ "all_layer_embeddings" →
      dictGet res k = dictGet features k) := by
  unfold Transformer.forward at h
  split at h
  · rename_i input_ids attention_mask hiid ham
    split at h
    · exact Option.noConfusion h
    · rename_i output_tokens hhead
      rw [promptAdjust_of_not_peft _ _ _ _ hp] at h
      rcases addHiddenStates_cases _ _ _ _ h with hres | ⟨hs, hres⟩
      · subst hres
        refine ⟨⟨output_tokens, dictGet_dictSet_self _ _ _⟩, ?_⟩
        intro k hte hale
        rw [dictGet_dictSet_ne _ _ _ _ hte]
      · subst hres
        refine ⟨⟨output_tokens, ?_⟩, ?_⟩
        · rw [dictGet_dictSet_ne _ _ _ _
            (by decide :
              ("token_embeddings" : String) ≠ "all_layer_embeddings"),
            dictGet_dictSet_self]
        · intro k hte hale
          rw [dictGet_dictSet_ne _ _ _ _ hale,
            dictGet_dictSet_ne _ _ _ _ hte]
  · exact Option.noConfusion h

/-- Claim C4, witnessed at a concrete non-PEFT model and features. -/
theorem claim_C4_forward_frame_witness :
    (∃ tokens, dictGet [("input_ids", Tensor.raw 1),
        ("attention_mask", Tensor.raw 2),
        ("token_embeddings", Tensor.raw 0)] "token_embeddings" =
      some tokens) ∧
    (∀ k, k ≠ "token_embeddings" → k ≠ "all_layer_embeddings" →
      dictGet [("input_ids", Tensor.raw 1), ("attention_mask", Tensor.raw 2),
        ("token_embeddings", Tensor.raw 0)] k =
      dictGet [("input_ids", Tensor.raw 1),
        ("attention_mask", Tensor.raw 2)] k) :=
  claim_C4_forward_frame fixedModel
    [("input_ids", Tensor.raw 1), ("attention_mask", Tensor.raw 2)]
    [("input_ids", Tensor.raw 1), ("attention_mask", Tensor.raw 2),
      ("token_embeddings", Tensor.raw 0)] rfl rfl

/-- Claim C6: `tokenize` dispatches on the type of the first element.  For
a (non-empty) list of strings the normalized texts form one batch; for a
list of single-entry dicts the dict values form one batch and the dict keys
are recorded under `"text_keys"` in input order; for a list of pairs the
first and second components form two parallel batches.  The hypotheses say
the external tokenizer returns a dict (no duplicate keys) that does not use
the reserved key `"text_keys"`. -/
theorem claim_C6_tokenize_shapes (tok : TokenizerSpec) (dl : Bool)
    (msl : Option Int)
    (hnd : ∀ b m, (dictKeys (tok.run b m)).Nodup)
    (htk : ∀ b m, "text_keys" ∉ dictKeys (tok.run b m)) :
    (∀ (s : String) (ss : List String),
      Transformer.tokenize tok dl msl ((s :: ss).map TextInput.str) =
        some (tensorValues
          (tok.run [(s :: ss).map (normText dl)] msl))) ∧
    (∀ (kv : String × String) (kvs : List (String × String)),
      Transformer.tokenize tok dl msl
          ((kv :: kvs).map (fun p => TextInput.dict [p])) =
        some (("text_keys",
            TokValue.textKeys ((kv :: kvs).map Prod.fst)) ::
          tensorValues (tok.run
            [((kv :: kvs).map Prod.snd).map (normText dl)] msl))) ∧
    (∀ (p : String × String) (ps : List (String × String)),
      Transformer.tokenize tok dl msl
          ((p :: ps).map (fun q => TextInput.pair q.1 q.2)) =
        some (tensorValues (tok.run
          [((p :: ps).map Prod.fst).map (normText dl),
           ((p :: ps).map Prod.snd).map (normText dl)] msl))) := by
  have hupd0 : ∀ (b : List (List String)) (m : Option Int),
      dictUpdate [] (tensorValues (tok.run b m)) =
        tensorValues (tok.run b m) := by
    intro b m
    have := dictUpdate_eq_append (tensorValues (tok.run b m)) []
      (by rw [dictKeys_tensorValues]; exact hnd b m)
      (by intro k hk; simp [dictKeys])
    simpa using this
  have hupd1 : ∀ (ks : List String) (b : List (List String))
      (m : Option Int),
      dictUpdate [("text_keys", TokValue.textKeys ks)]
        (tensorValues (tok.run b m)) =
      ("text_keys", TokValue.textKeys ks) :: tensorValues (tok.run b m) := by
    intro ks b m
    have := dictUpdate_eq_append (tensorValues (tok.run b m))
      [("text_keys", TokValue.textKeys ks)]
      (by rw [dictKeys_tensorValues]; exact hnd b m)
      (by
        intro k hk
        rw [dictKeys_tensorValues] at hk
        intro hmem
        simp only [dictKeys, List.map_cons, List.map_nil,
          List.mem_singleton] at hmem
        subst hmem
        exact htk b m hk)
    simpa using this
  refine ⟨?_, ?_, ?_⟩
  · intro s ss
    have hex : extractAll extractStr
        (TextInput.str s :: ss.map TextInput.str) = some (s :: ss) :=
      extractAll_map_str (s :: ss)
    simp [Transformer.tokenize, shapeDispatch, hex, hupd0, normBatches_eq]
  · intro kv kvs
    have hex : extractAll extractDictEntry
        (TextInput.dict [kv] ::
          kvs.map (fun p => TextInput.dict [p])) = some (kv :: kvs) :=
      extractAll_map_dict (kv :: kvs)
    simp [Transformer.tokenize, shapeDispatch, hex, hupd1, normBatches_eq,
      List.map_map, Function.comp]
  · intro p ps
    have hex : extractAll extractPair
        (TextInput.pair p.1 p.2 ::
          ps.map (fun q => TextInput.pair q.1 q.2)) = some (p :: ps) :=
      extractAll_map_pair (p :: ps)
    simp [Transformer.tokenize, shapeDispatch, hex, hupd0, normBatches_eq,
      List.map_map, Function.comp]

/-- Claim C6, witnessed at one concrete input of each shape, with a
concrete tokenizer. -/
theorem claim_C6_tokenize_shapes_witness :
    (Transformer.tokenize fixedTokenizer false none
        [TextInput.str " Hello "] =
      some (tensorValues
        (fixedTokenizer.run [List.map (normText false) [" Hello "]] none))) ∧
    (Transformer.tokenize fixedTokenizer false none
        [TextInput.dict [("q", "hi")]] =
      some (("text_keys", TokValue.textKeys ["q"]) ::
        tensorValues (fixedTokenizer.run
          [List.map (normText false) ["hi"]] none))) ∧
    (Transformer.tokenize fixedTokenizer false none
        [TextInput.pair "a" "b"] =
      some (tensorValues (fixedTokenizer.run
        [List.map (normText false) ["a"],
         List.map (normText false) ["b"]] none))) :=
  have h := claim_C6_tokenize_shapes fixedTokenizer false none
    (fun _ _ =>
      (by decide :
        (dictKeys ([("input_ids", Tensor.raw 0),
          ("attention_mask", Tensor.raw 1)] : List (String × Tensor))).Nodup))
    (fun _ _ =>
      (by decide :
        "text_keys" ∉ dictKeys ([("input_ids", Tensor.raw 0),
          ("attention_mask", Tensor.raw 1)] : List (String × Tensor))))
  ⟨h.1 " Hello " [], h.2.1 ("q", "hi") [], h.2.2 ("a", "b") []⟩

/-- Claim C3 (amended): with a tokenizer that only emits the keys the
forward pass expects, every key of a `tokenize` result is one of
`input_ids`, `attention_mask`, `token_type_ids` — plus `"text_keys"`,
which additionally occurs for dict-shaped inputs; for string- and
pair-shaped inputs the original subset claim holds. -/
theorem claim_C3_amended (tok : TokenizerSpec) (dl : Bool)
    (msl : Option Int) (texts : List TextInput)
    (res : List (String × TokValue))
    (henc : ∀ b m k, k ∈ dictKeys (tok.run b m) →
      k ∈ (["input_ids", "attention_mask", "token_type_ids"] : List String))
    (h : Transformer.tokenize tok dl msl texts = some res) :
    (∀ k ∈ dictKeys res,
      k ∈ (["text_keys", "input_ids", "attention_mask",
        "token_type_ids"] : List String)) ∧
    (∀ s0, texts.head? = some (TextInput.str s0) →
      ∀ k ∈ dictKeys res,
        k ∈ (["input_ids", "attention_mask",
          "token_type_ids"] : List String)) ∧
    (∀ a0 b0, texts.head? = some (TextInput.pair a0 b0) →
      ∀ k ∈ dictKeys res,
        k ∈ (["input_ids", "attention_mask",
          "token_type_ids"] : List String)) := by
  cases texts with
  | nil => exact Option.noConfusion h
  | cons first rest =>
    have hencKeys : ∀ (T : List (List String)) (k : String),
        k ∈ dictKeys (tensorValues (tok.run T msl)) →
        k ∈ (["input_ids", "attention_mask",
          "token_type_ids"] : List String) := by
      intro T k hk
      rw [dictKeys_tensorValues] at hk
      exact henc T msl k hk
    simp only [Transformer.tokenize] at h
    split at h
    · exact Option.noConfusion h
    · rename_i output to_tokenize hdisp
      injection h with h
      subst h
      cases first with
      | str s =>
        simp only [shapeDispatch] at hdisp
        split at hdisp
        · exact Option.noConfusion hdisp
        · rename_i ss hss
          injection hdisp with hdisp
          injection hdisp with ho ht
          subst ho
          subst ht
          refine ⟨?_, ?_, ?_⟩
          · intro k hk
            rcases mem_dictKeys_dictUpdate _ _ _ hk with h' | h'
            · simp [dictKeys] at h'
            · exact List.mem_cons_of_mem _ (hencKeys _ k h')
          · intro s0 hs0 k hk
            rcases mem_dictKeys_dictUpdate _ _ _ hk with h' | h'
            · simp [dictKeys] at h'
            · exact hencKeys _ k h'
          · intro a0 b0 hab
            simp at hab
      | dict entries =>
        simp only [shapeDispatch] at hdisp
        split at hdisp
        · exact Option.noConfusion hdisp
        · rename_i kvs hkvs
          injection hdisp with hdisp
          injection hdisp with ho ht
          subst ho
          subst ht
          refine ⟨?_, ?_, ?_⟩
          · intro k hk
            rcases mem_dictKeys_dictUpdate _ _ _ hk with h' | h'
            · simp only [dictKeys, List.map_cons, List.map_nil,
                List.mem_singleton] at h'
              subst h'
              simp
            · exact List.mem_cons_of_mem _ (hencKeys _ k h')
          · intro s0 hs0
            simp at hs0
          · intro a0 b0 hab
            simp at hab
      | pair a b =>
        simp only [shapeDispatch] at hdisp
        split at hdisp
        · exact Option.noConfusion hdisp
        · rename_i ps hps
          injection hdisp with hdisp
          injection hdisp with ho ht
          subst ho
          subst ht
          refine ⟨?_, ?_, ?_⟩
          · intro k hk
            rcases mem_dictKeys_dictUpdate _ _ _ hk with h' | h'
            · simp [dictKeys] at h'
            · exact List.mem_cons_of_mem _ (hencKeys _ k h')
          · intro s0 hs0
            simp at hs0
          · intro a0 b0 hab k hk
            rcases mem_dictKeys_dictUpdate _ _ _ hk with h' | h'
            · simp [dictKeys] at h'
            · exact hencKeys _ k h'

/-- Claim C3 (amended), witnessed at a concrete dict-shaped input and the
concrete result key `"text_keys"`. -/
theorem claim_C3_amended_witness :
    "text_keys" ∈ (["text_keys", "input_ids", "attention_mask",
      "token_type_ids"] : List String) :=
  (claim_C3_amended fixedTokenizer false none
    [TextInput.dict [("query", "hello")]]
    [("text_keys", TokValue.textKeys ["query"]),
      ("input_ids", TokValue.tensor (Tensor.raw 0)),
      ("attention_mask", TokValue.tensor (Tensor.raw 1))]
    (fun _ _ k hk => by
      have hk2 : k = "input_ids" ∨ k = "attention_mask" := by
        simpa [fixedTokenizer, dictKeys] using hk
      rcases hk2 with h | h <;> simp [h])
    rfl).1 "text_keys" (by decide)

end MindNLP
